import Mathlib

/-!
Verification development for the Optio signal server (rendezvous relay for
two-peer rooms). The source repository ships two variants of the server in
one file: the hardened variant (origin allowlist, per-IP rate limiting,
TTL+LRU dedup cache) and an earlier v2.0 variant (explicit room state
string, simpler dedup set, detailed error messages). Both are embedded
below; definitions suffixed `_v2` come from the v2.0 variant.

Conventions of the shallow embedding:
- a WebSocket connection is identified by a natural number (`ConnId`);
  reference equality on sockets becomes equality of identifiers;
- the readyState of a socket is supplied by an environment `env : ConnId → Bool`
  (`true` means OPEN); handlers read it but never change it;
- JS `Map` / `WeakMap` objects become association lists with the same
  update-in-place / append-on-insert ordering semantics (`aset`, `aerase`);
- `Date.now()` timestamps are naturals; JS subtraction `now - ts` on
  timestamps only ever feeds comparisons against nonnegative bounds, where
  truncated natural subtraction agrees with JS number subtraction;
- outbound frames are collected in a list of (recipient, frame) pairs in
  emission order instead of being written to sockets.
-/

/-- Connection identifier standing for a WebSocket object reference. -/
abbrev ConnId := Nat

/-- First-match lookup in an association list, as JS Map.get. -/
def alookup {κ α : Type} [DecidableEq κ] : List (κ × α) → κ → Option α
  | [], _ => none
  | (k, v) :: t, k2 => if k2 = k then some v else alookup t k2

/-- JS Map.set: update the existing entry in place (preserving insertion
order), or append a new entry at the end. -/
def aset {κ α : Type} [DecidableEq κ] : List (κ × α) → κ → α → List (κ × α)
  | [], k, v => [(k, v)]
  | (k0, v0) :: t, k, v => if k = k0 then (k, v) :: t else (k0, v0) :: aset t k v

/-- JS Map.delete: remove the entry with the given key. -/
def aerase {κ α : Type} [DecidableEq κ] : List (κ × α) → κ → List (κ × α)
  | [], _ => []
  | (k0, v0) :: t, k => if k0 = k then aerase t k else (k0, v0) :: aerase t k

-- ===== Config constants of the hardened variant (source lines 22-52) =====

/-- Maximum room age in milliseconds (1 hour). -/
def MAX_ROOM_AGE_MS : Nat := 3600000

/-- Per-connection rate window in milliseconds. -/
def CONN_RATE_WINDOW_MS : Nat := 1000

/-- Per-connection message ceiling per window. -/
def CONN_RATE_MAX : Nat := 50

/-- Per-IP rate window in milliseconds. -/
def IP_RATE_WINDOW_MS : Nat := 60000

/-- Per-IP ceiling per window. -/
def IP_RATE_MAX : Nat := 100

-- ===== Dedup cache (class BoundedSeenIds, source lines 139-182) =====

/-- Bounded TTL+LRU set of recently seen payload fingerprints.
`map` is insertion-ordered, oldest first, exactly like a JS Map. -/
structure BoundedSeenIds where
  max : Nat
  ttlMs : Nat
  map : List (String × Nat)
  deriving DecidableEq

/-- Body of BoundedSeenIds._purgeExpired: walk the map from the front
(oldest first), deleting entries while they are expired, stopping at the
first entry that is not. -/
def purgeExpired (ttlMs now : Nat) : List (String × Nat) → List (String × Nat)
  | [] => []
  | (k, ts) :: t => if now - ts ≤ ttlMs then (k, ts) :: t else purgeExpired ttlMs now t

/-- The while loop at the end of BoundedSeenIds.add: delete the oldest
entry while the size exceeds the maximum. -/
def trimOldest (max : Nat) : List (String × Nat) → List (String × Nat)
  | [] => []
  | x :: t => if t.length + 1 > max then trimOldest max t else x :: t

/-- BoundedSeenIds.has: purge expired entries, then look the key up; a
TTL-expired hit is deleted and reported absent; a live hit is refreshed to
the most-recently-used position with the current timestamp. Returns the
answer together with the mutated cache. -/
def BoundedSeenIds.has (c : BoundedSeenIds) (key : String) (now : Nat) :
    Bool × BoundedSeenIds :=
  let m := purgeExpired c.ttlMs now c.map
  match alookup m key with
  | none => (false, ⟨c.max, c.ttlMs, m⟩)
  | some ts =>
    if now - ts > c.ttlMs then (false, ⟨c.max, c.ttlMs, aerase m key⟩)
    else (true, ⟨c.max, c.ttlMs, aerase m key ++ [(key, now)]⟩)

/-- BoundedSeenIds.add: purge expired entries, re-insert the key at the
most-recently-used position with the current timestamp, then evict oldest
entries while the size bound is exceeded. -/
def BoundedSeenIds.add (c : BoundedSeenIds) (key : String) (now : Nat) :
    BoundedSeenIds :=
  let m := purgeExpired c.ttlMs now c.map
  ⟨c.max, c.ttlMs, trimOldest c.max (aerase m key ++ [(key, now)])⟩

-- ===== Data model of the hardened variant (source lines 54-58) =====

/-- A room: host and guest slots (socket references or null), creation
time, and the per-room dedup cache. -/
structure Room where
  host : Option ConnId
  guest : Option ConnId
  createdAt : Nat
  seenIds : BoundedSeenIds
  deriving DecidableEq

/-- Per-connection record kept in the clients WeakMap. The random `id`
field of the source is never read by any server logic and is omitted. -/
structure ClientRec where
  roomCode : Option String
  isHost : Bool
  msgCount : Nat
  msgWindowStart : Nat
  deriving DecidableEq

/-- The mutable server state: the rooms registry and the clients map. -/
structure ServerState where
  rooms : List (String × Room)
  clients : List (ConnId × ClientRec)
  deriving DecidableEq

/-- Frames sent server-to-client by the hardened variant. Its generic
error frame carries no detail, hence the bare `error` constructor. -/
inductive SMsg
  | created (room : String)
  | joined (room : String)
  | peerJoined
  | peerLeft
  | signal (data : String)
  | roomClosed
  | error
  | left
  deriving DecidableEq

/-- Inbound frames after JSON parsing. `malformed` stands for a frame that
fails JSON parsing or validateMessageShape (unknown type, bad payload). -/
inductive CMsg
  | create (room : String)
  | join (room : String)
  | signal (data : String)
  | leave
  | pong
  | malformed
  deriving DecidableEq

-- ===== Utilities (source lines 60-109) =====

/-- Drop leading whitespace characters from a character list. -/
def trimLeftList : List Char → List Char
  | [] => []
  | c :: t => if c.isWhitespace then trimLeftList t else c :: t

/-- normalizeRoomCode: lowercase then trim surrounding whitespace. The JS
toLowerCase and trim are modelled directly on the character list
(per-character lowering, whitespace stripped from both ends). -/
def normalizeRoomCode (room : String) : String :=
  ⟨(trimLeftList ((trimLeftList (room.data.map Char.toLower)).reverse)).reverse⟩

/-- isValidRoomCode: lowercase alphanumerics and dash, length 1..50. -/
def isValidRoomCode (room : String) : Bool :=
  decide (1 ≤ room.data.length) && decide (room.data.length ≤ 50) &&
    room.data.all (fun c => (decide ('a' ≤ c) && decide (c ≤ 'z')) ||
      (decide ('0' ≤ c) && decide (c ≤ '9')) || decide (c = '-'))

/-- The payload fingerprint sha256Base64Url22. The source hashes the
serialized payload with SHA-256 (22 base64url chars, collisions negligible
by design); the embedding models the fingerprint as an injective function
of the payload bytes, concretely the identity. -/
def sha256Base64Url22 (s : String) : String := s

/-- safeSend: emit the frame only when a target exists and its channel is
open. -/
def safeSend (env : ConnId → Bool) (target : Option ConnId) (m : SMsg) :
    List (ConnId × SMsg) :=
  match target with
  | some c => if env c then [(c, m)] else []
  | none => []

/-- sendGenericError: the single generic rejection frame, sent only to an
open channel. -/
def sendGenericError (env : ConnId → Bool) (ws : ConnId) : List (ConnId × SMsg) :=
  if env ws then [(ws, SMsg.error)] else []

-- ===== cleanupClient (source lines 214-230) =====

/-- cleanupClient: runs on leave requests, close events and supervisor
termination. Notifies the other slot holder, empties the slots held by
this connection, and deletes the room when both slots become empty. Does
not clear the clients record roomCode (only the leave handler does). -/
def cleanupClient (env : ConnId → Bool) (ws : ConnId) (s : ServerState) :
    ServerState × List (ConnId × SMsg) :=
  match alookup s.clients ws with
  | none => (s, [])
  | some client =>
    match client.roomCode with
    | none => (s, [])
    | some code =>
      match alookup s.rooms code with
      | none => (s, [])
      | some room =>
        let other := if room.host = some ws then room.guest else room.host
        let out := safeSend env other SMsg.peerLeft
        let room2 : Room :=
          { room with
            host := if room.host = some ws then none else room.host,
            guest := if room.guest = some ws then none else room.guest }
        if room2.host = none ∧ room2.guest = none then
          ({ s with rooms := aerase s.rooms code }, out)
        else
          ({ s with rooms := aset s.rooms code room2 }, out)

-- ===== Per-connection rate limit (source lines 302-312) =====

/-- The inline per-connection rate check at the top of the message
handler: reset the window when the elapsed time reaches the window length,
increment, allow iff the count stays within the ceiling. -/
def connRateCheck (client : ClientRec) (now : Nat) : ClientRec × Bool :=
  let c :=
    if now - client.msgWindowStart ≥ CONN_RATE_WINDOW_MS then
      { client with msgWindowStart := now, msgCount := 1 }
    else
      { client with msgCount := client.msgCount + 1 }
  (c, !decide (c.msgCount > CONN_RATE_MAX))

/-- validateMessageShape folded over the structured message: room codes
must normalize to a valid code; signal payload shape failures and
unparsable frames are `malformed`. -/
def validShape : CMsg → Bool
  | CMsg.create rm => isValidRoomCode (normalizeRoomCode rm)
  | CMsg.join rm => isValidRoomCode (normalizeRoomCode rm)
  | CMsg.signal _ => true
  | CMsg.leave => true
  | CMsg.pong => true
  | CMsg.malformed => false

-- ===== Message handlers (source lines 337-424) =====

/-- The create branch: reject invalid codes and colliding codes with the
generic error, otherwise allocate the room with the requester as host. -/
def handleCreate (env : ConnId → Bool) (ws : ConnId) (client : ClientRec)
    (rm : String) (now : Nat) (s : ServerState) :
    ServerState × List (ConnId × SMsg) :=
  let roomCode := normalizeRoomCode rm
  if !isValidRoomCode roomCode then (s, sendGenericError env ws)
  else if (alookup s.rooms roomCode).isSome then (s, sendGenericError env ws)
  else
    let room : Room :=
      { host := some ws, guest := none, createdAt := now,
        seenIds := ⟨512, 300000, []⟩ }
    ({ s with
        rooms := aset s.rooms roomCode room,
        clients := aset s.clients ws
          { client with roomCode := some roomCode, isHost := true } },
     safeSend env (some ws) (SMsg.created roomCode))

/-- The join branch: the room must exist with an open host, the guest slot
must not hold an open socket, and the requester must not be the host. -/
def handleJoin (env : ConnId → Bool) (ws : ConnId) (client : ClientRec)
    (rm : String) (_now : Nat) (s : ServerState) :
    ServerState × List (ConnId × SMsg) :=
  let roomCode := normalizeRoomCode rm
  match alookup s.rooms roomCode with
  | none => (s, sendGenericError env ws)
  | some room =>
    let hostOpen := match room.host with
      | some h => env h
      | none => false
    if !hostOpen then (s, sendGenericError env ws)
    else
      let guestOpen := match room.guest with
        | some g => env g
        | none => false
      if guestOpen then (s, sendGenericError env ws)
      else if room.host = some ws then (s, sendGenericError env ws)
      else
        ({ s with
            rooms := aset s.rooms roomCode { room with guest := some ws },
            clients := aset s.clients ws
              { client with roomCode := some roomCode, isHost := false } },
         safeSend env (some ws) (SMsg.joined roomCode) ++
           safeSend env room.host SMsg.peerJoined)

/-- The signal branch of the hardened variant: generic error when the
connection holds no room code, generic error when the held code maps to no
room, then fingerprint dedup (recording before delivery) and best-effort
relay to the other slot. -/
def handleSignal (env : ConnId → Bool) (ws : ConnId) (client : ClientRec)
    (payload : String) (now : Nat) (s : ServerState) :
    ServerState × List (ConnId × SMsg) :=
  match client.roomCode with
  | none => (s, sendGenericError env ws)
  | some code =>
    match alookup s.rooms code with
    | none => (s, sendGenericError env ws)
    | some room =>
      let fp := sha256Base64Url22 payload
      let hc := room.seenIds.has fp now
      if hc.fst then
        ({ s with rooms := aset s.rooms code { room with seenIds := hc.snd } }, [])
      else
        let cache := hc.snd.add fp now
        let target := if room.host = some ws then room.guest else room.host
        ({ s with rooms := aset s.rooms code { room with seenIds := cache } },
         safeSend env target (SMsg.signal payload))

/-- The leave branch: run cleanupClient, then clear the roomCode on the
clients record and confirm. -/
def handleLeave (env : ConnId → Bool) (ws : ConnId) (client : ClientRec)
    (s : ServerState) : ServerState × List (ConnId × SMsg) :=
  let r := cleanupClient env ws s
  ({ r.fst with clients := aset r.fst.clients ws { client with roomCode := none } },
   r.snd ++ safeSend env (some ws) SMsg.left)

/-- The full message handler of the hardened variant: per-connection rate
check first, then shape validation, then dispatch. -/
def handleMessage (env : ConnId → Bool) (ws : ConnId) (msg : CMsg) (now : Nat)
    (s : ServerState) : ServerState × List (ConnId × SMsg) :=
  match alookup s.clients ws with
  | none => (s, [])
  | some client =>
    let rc := connRateCheck client now
    let s1 : ServerState := { s with clients := aset s.clients ws rc.fst }
    if !rc.snd then (s1, sendGenericError env ws)
    else if !validShape msg then (s1, sendGenericError env ws)
    else
      match msg with
      | CMsg.create rm => handleCreate env ws rc.fst rm now s1
      | CMsg.join rm => handleJoin env ws rc.fst rm now s1
      | CMsg.signal d => handleSignal env ws rc.fst d now s1
      | CMsg.leave => handleLeave env ws rc.fst s1
      | CMsg.pong => (s1, [])
      | CMsg.malformed => (s1, sendGenericError env ws)

-- ===== Room reaper (source lines 452-467) =====

/-- One pass of the periodic room sweep: rooms past the maximum age are
closed with notifications; rooms where neither slot holds an open socket
are deleted silently. -/
def reapRooms (env : ConnId → Bool) (now : Nat) :
    List (String × Room) → List (String × Room) × List (ConnId × SMsg)
  | [] => ([], [])
  | (code, room) :: rest =>
    let r := reapRooms env now rest
    if now - room.createdAt > MAX_ROOM_AGE_MS then
      (r.fst, (safeSend env room.host SMsg.roomClosed ++
        safeSend env room.guest SMsg.roomClosed) ++ r.snd)
    else
      let hostAlive := match room.host with
        | some h => env h
        | none => false
      let guestAlive := match room.guest with
        | some g => env g
        | none => false
      if !hostAlive && !guestAlive then (r.fst, r.snd)
      else ((code, room) :: r.fst, r.snd)

/-- The roomCleanupInterval body applied to the whole registry. -/
def reap (env : ConnId → Bool) (now : Nat) (s : ServerState) :
    ServerState × List (ConnId × SMsg) :=
  let r := reapRooms env now s.rooms
  ({ s with rooms := r.fst }, r.snd)

/-- The clients record installed on connection (source lines 284-290). -/
def newClient (now : Nat) : ClientRec :=
  { roomCode := none, isHost := false, msgCount := 0, msgWindowStart := now }

-- ===== Reachable states of the hardened variant =====

/-- One atomic event of the single logical sequencer: a connection is
admitted, a frame is handled, a close event or supervisor termination runs
the cleanup path, or the periodic reaper sweeps the registry. -/
inductive Step : ServerState → ServerState → Prop
  | connect (s : ServerState) (ws : ConnId) (now : Nat)
      (h : alookup s.clients ws = none) :
      Step s { s with clients := aset s.clients ws (newClient now) }
  | message (s : ServerState) (env : ConnId → Bool) (ws : ConnId) (msg : CMsg)
      (now : Nat) : Step s (handleMessage env ws msg now s).fst
  | disconnect (s : ServerState) (env : ConnId → Bool) (ws : ConnId) :
      Step s (cleanupClient env ws s).fst
  | reaper (s : ServerState) (env : ConnId → Bool) (now : Nat) :
      Step s (reap env now s).fst

/-- States reachable from the empty registry at startup. -/
inductive Reachable : ServerState → Prop
  | init : Reachable { rooms := [], clients := [] }
  | step {s s2 : ServerState} : Reachable s → Step s s2 → Reachable s2

/-- Every registered room still holds at least one occupant reference.
This is the invariant the hardened variant actually maintains. -/
def RoomsOK (s : ServerState) : Prop :=
  ∀ p ∈ s.rooms, (p : String × Room).2.host ≠ none ∨ p.2.guest ≠ none

-- ===== Gatekeeper of the hardened variant (source lines 184-212, 253-281) =====

/-- A fixed-window bucket of the per-IP RateLimiter. -/
structure RateBucket where
  count : Nat
  windowStart : Nat
  deriving DecidableEq

/-- RateLimiter.allow: reset the bucket when absent or when the window has
elapsed, otherwise increment and compare against the ceiling. Returns the
verdict and the mutated bucket map. -/
def rlAllow (windowMs maxCount : Nat) (buckets : List (String × RateBucket))
    (key : String) (now : Nat) : Bool × List (String × RateBucket) :=
  match alookup buckets key with
  | none => (true, aset buckets key ⟨1, now⟩)
  | some b =>
    if now - b.windowStart ≥ windowMs then (true, aset buckets key ⟨1, now⟩)
    else (decide (b.count + 1 ≤ maxCount), aset buckets key ⟨b.count + 1, b.windowStart⟩)

/-- Outcome of verifyClient as seen by the requester: admission, or an
HTTP rejection with a status code and reason phrase. -/
inductive VerifyDecision
  | accept
  | reject (status : Nat) (reason : String)
  deriving DecidableEq

/-- verifyClient: when an allowlist is configured the origin must be
present and listed; a missing source address is rejected; then the per-IP
fixed-window check runs. The empty string stands for a missing origin
header (getOrigin returns the empty string) or a missing address. -/
def verifyClient (allowedOrigins : List String)
    (buckets : List (String × RateBucket)) (origin ip : String) (now : Nat) :
    VerifyDecision × List (String × RateBucket) :=
  if 0 < allowedOrigins.length ∧ (origin = "" ∨ allowedOrigins.contains origin = false) then
    (VerifyDecision.reject 403 "Forbidden", buckets)
  else if ip = "" then
    (VerifyDecision.reject 403 "Forbidden", buckets)
  else if (rlAllow IP_RATE_WINDOW_MS IP_RATE_MAX buckets ip now).fst = false then
    (VerifyDecision.reject 429 "Too Many Requests",
     (rlAllow IP_RATE_WINDOW_MS IP_RATE_MAX buckets ip now).snd)
  else
    (VerifyDecision.accept, (rlAllow IP_RATE_WINDOW_MS IP_RATE_MAX buckets ip now).snd)

-- ===== The v2.0 variant (second half of the source file) =====

/-- v2.0 rate limit window in milliseconds. -/
def RATE_LIMIT_WINDOW : Nat := 1000

/-- v2.0 per-window message ceiling. -/
def RATE_LIMIT_MAX : Nat := 50

/-- A v2.0 room: explicit state string (ONE or TWO) and a plain
insertion-ordered dedup set. -/
structure Room2 where
  host : Option ConnId
  guest : Option ConnId
  state : String
  createdAt : Nat
  seenIds : List String
  deriving DecidableEq

/-- The v2.0 server state. -/
structure ServerState2 where
  rooms : List (String × Room2)
  clients : List (ConnId × ClientRec)
  deriving DecidableEq

/-- Frames sent server-to-client by the v2.0 variant; its error frames
carry a human-readable message. -/
inductive SMsg2
  | error (message : String)
  | created (room : String)
  | joined (room : String)
  | peerJoined
  | peerLeft
  | signal (data : String)
  | roomClosed
  | left
  | ping
  deriving DecidableEq

/-- The v2.0 payload fingerprint hashSignal (a 32-bit string hash);
modelled, like the hardened fingerprint, as an injective function of the
payload bytes. -/
def hashSignal (s : String) : String := s

/-- v2.0 checkRateLimit: resets the window only when the elapsed time
STRICTLY exceeds the window length (the hardened variant resets at
greater-or-equal). -/
def checkRateLimit_v2 (client : ClientRec) (now : Nat) : ClientRec × Bool :=
  let c0 :=
    if now - client.msgWindowStart > RATE_LIMIT_WINDOW then
      { client with msgWindowStart := now, msgCount := 0 }
    else client
  let c := { c0 with msgCount := c0.msgCount + 1 }
  (c, decide (c.msgCount ≤ RATE_LIMIT_MAX))

/-- v2.0 create branch: colliding codes are rejected with a detailed
error; otherwise the room starts in state ONE with the requester as
host. -/
def handleCreate_v2 (ws : ConnId) (client : ClientRec) (rm : String)
    (now : Nat) (s : ServerState2) : ServerState2 × List (ConnId × SMsg2) :=
  let roomCode := normalizeRoomCode rm
  if (alookup s.rooms roomCode).isSome then
    (s, [(ws, SMsg2.error "Room exists")])
  else
    let room : Room2 :=
      { host := some ws, guest := none, state := "ONE", createdAt := now,
        seenIds := [] }
    ({ s with
        rooms := aset s.rooms roomCode room,
        clients := aset s.clients ws
          { client with roomCode := some roomCode, isHost := true } },
     [(ws, SMsg2.created roomCode)])

/-- v2.0 join branch: rejects only a missing room or state TWO. There is
no self-join check, so the requester is installed as guest even when it is
already the host of the room. -/
def handleJoin_v2 (env : ConnId → Bool) (ws : ConnId) (client : ClientRec)
    (rm : String) (s : ServerState2) : ServerState2 × List (ConnId × SMsg2) :=
  let roomCode := normalizeRoomCode rm
  match alookup s.rooms roomCode with
  | none => (s, [(ws, SMsg2.error "Room not found")])
  | some room =>
    if room.state = "TWO" then (s, [(ws, SMsg2.error "Room full")])
    else
      let room2 : Room2 := { room with guest := some ws, state := "TWO" }
      ({ s with
          rooms := aset s.rooms roomCode room2,
          clients := aset s.clients ws
            { client with roomCode := some roomCode, isHost := false } },
       [(ws, SMsg2.joined roomCode)] ++
         (match room.host with
          | some h => if env h then [(h, SMsg2.peerJoined)] else []
          | none => []))

/-- v2.0 signal branch: a detailed error when the connection holds no room
code, a SILENT no-op when the held code maps to no room, then dedup on the
plain set (trimmed to the newest 100 once it exceeds 200 entries) and
best-effort relay. -/
def handleSignal_v2 (env : ConnId → Bool) (ws : ConnId) (client : ClientRec)
    (payload : String) (s : ServerState2) : ServerState2 × List (ConnId × SMsg2) :=
  match client.roomCode with
  | none => (s, [(ws, SMsg2.error "Not in room")])
  | some code =>
    match alookup s.rooms code with
    | none => (s, [])
    | some room =>
      let msgId := hashSignal payload
      if room.seenIds.contains msgId then (s, [])
      else
        let seen := room.seenIds ++ [msgId]
        let seen := if seen.length > 200 then seen.drop (seen.length - 100) else seen
        let target := if room.host = some ws then room.guest else room.host
        ({ s with rooms := aset s.rooms code { room with seenIds := seen } },
         match target with
         | some t => if env t then [(t, SMsg2.signal payload)] else []
         | none => [])

-- ===== Concrete states used by witnesses and counterexamples =====

/-- An environment in which every socket is open. -/
def envAll : ConnId → Bool := fun _ => true

/-- A paired room used by the C1 witness. -/
def c1room : Room :=
  { host := some 0, guest := some 1, createdAt := 0, seenIds := ⟨512, 300000, []⟩ }

/-- The clients record of the C1 witness sender. -/
def c1client : ClientRec := ⟨some "r", true, 0, 0⟩

/-- The C1 witness state: one paired room, empty dedup cache. -/
def c1s : ServerState := { rooms := [("r", c1room)], clients := [] }

/-- One-peer room used by C10: host 0 alone, empty dedup cache. -/
def c10room : Room :=
  { host := some 0, guest := none, createdAt := 0, seenIds := ⟨512, 300000, []⟩ }

/-- Clients record of the C10 host. -/
def c10ca : ClientRec := ⟨some "r", true, 0, 0⟩

/-- Clients record of the C10 late joiner. -/
def c10cb : ClientRec := ⟨none, false, 0, 0⟩

/-- C10 initial state: host 0 alone in room r, connection 1 not yet joined. -/
def c10s : ServerState :=
  { rooms := [("r", c10room)], clients := [(0, c10ca), (1, c10cb)] }

/-- Environment of the C3 scenario: host 0 is open, guest 1 is dead. -/
def c3env : ConnId → Bool := fun c => decide (c = 0)

/-- The paired room of the C3 scenario. -/
def c3room : Room :=
  { host := some 0, guest := some 1, createdAt := 0, seenIds := ⟨512, 300000, []⟩ }

/-- The C3 state: host 0 and guest 1 paired in room r. -/
def c3s : ServerState :=
  { rooms := [("r", c3room)],
    clients := [(0, ⟨some "r", true, 0, 0⟩), (1, ⟨some "r", false, 0, 0⟩)] }

/-- A clients record holding a stale room code. -/
def c4client : ClientRec := ⟨some "r", true, 0, 0⟩

/-- A registry with no rooms at all. -/
def c4s : ServerState := { rooms := [], clients := [(0, c4client)] }

/-- An occupied room used by the C5 witness. -/
def c5room : Room :=
  { host := some 7, guest := none, createdAt := 0, seenIds := ⟨512, 300000, []⟩ }

/-- C5 witness state for the hardened variant. -/
def c5s : ServerState := { rooms := [("demo", c5room)], clients := [] }

/-- C5 witness state for the v2.0 variant. -/
def c5s2 : ServerState2 :=
  { rooms := [("demo", ⟨some 7, none, "ONE", 0, []⟩)], clients := [] }

/-- One-peer v2.0 room whose host is connection 0. -/
def c6room2 : Room2 :=
  { host := some 0, guest := none, state := "ONE", createdAt := 0, seenIds := [] }

/-- C6 counterexample state for the v2.0 variant. -/
def c6s2 : ServerState2 :=
  { rooms := [("r", c6room2)], clients := [(0, ⟨some "r", true, 0, 0⟩)] }

/-- Reachable state after connection 0 is admitted. -/
def c2s1 : ServerState := { rooms := [], clients := aset [] 0 (newClient 0) }

/-- Reachable state after connection 1 is admitted. -/
def c2s2 : ServerState := { c2s1 with clients := aset c2s1.clients 1 (newClient 0) }

/-- Reachable state after connection 0 creates room r. -/
def c2s3 : ServerState := (handleMessage envAll 0 (CMsg.create "r") 0 c2s2).fst

/-- Reachable state after connection 1 joins room r. -/
def c2s4 : ServerState := (handleMessage envAll 1 (CMsg.join "r") 0 c2s3).fst

/-- Reachable state after the host of the full room r disconnects. -/
def c2s5 : ServerState := (cleanupClient envAll 0 c2s4).fst

/-- Reachable state used by the C2 witness: one room just created. -/
def c2w1 : ServerState := { rooms := [], clients := aset [] 5 (newClient 2) }

/-- Reachable witness state after connection 5 creates room demo. -/
def c2w2 : ServerState := (handleMessage envAll 5 (CMsg.create "demo") 2 c2w1).fst

-- ===== Association list lemmas =====

theorem alookup_aset {κ α : Type} [DecidableEq κ] (l : List (κ × α)) (k : κ)
    (v : α) (k2 : κ) :
    alookup (aset l k v) k2 = if k2 = k then some v else alookup l k2 := by
  induction l with
  | nil => simp [aset, alookup]
  | cons h t ih =>
    obtain ⟨k0, v0⟩ := h
    by_cases hk : k = k0
    · subst hk
      by_cases h2 : k2 = k <;> simp [aset, alookup, h2]
    · by_cases h2 : k2 = k0
      · subst h2
        simp [aset, alookup, hk, Ne.symm hk]
      · simp [aset, alookup, hk, h2, ih]

theorem mem_aset {κ α : Type} [DecidableEq κ] {l : List (κ × α)} {k : κ}
    {v : α} {p : κ × α} (h : p ∈ aset l k v) : p = (k, v) ∨ p ∈ l := by
  induction l with
  | nil => simpa [aset] using h
  | cons hd t ih =>
    obtain ⟨k0, v0⟩ := hd
    by_cases hk : k = k0
    · subst hk
      rcases (by simpa [aset] using h : p = (k, v) ∨ p ∈ t) with h1 | h1
      · exact Or.inl h1
      · exact Or.inr (List.mem_cons_of_mem _ h1)
    · rcases (by simpa [aset, hk] using h : p = (k0, v0) ∨ p ∈ aset t k v) with h1 | h1
      · exact Or.inr (by simp [h1])
      · rcases ih h1 with h2 | h2
        · exact Or.inl h2
        · exact Or.inr (List.mem_cons_of_mem _ h2)

theorem mem_aerase {κ α : Type} [DecidableEq κ] {l : List (κ × α)} {k : κ}
    {p : κ × α} (h : p ∈ aerase l k) : p ∈ l := by
  induction l with
  | nil => simp [aerase] at h
  | cons hd t ih =>
    obtain ⟨k0, v0⟩ := hd
    by_cases hk : k0 = k
    · exact List.mem_cons_of_mem _ (ih (by simpa [aerase, hk] using h))
    · rcases (by simpa [aerase, hk] using h : p = (k0, v0) ∨ p ∈ aerase t k) with h1 | h1
      · simp [h1]
      · exact List.mem_cons_of_mem _ (ih h1)

theorem alookup_mem {κ α : Type} [DecidableEq κ] {l : List (κ × α)} {k : κ}
    {v : α} (h : alookup l k = some v) : (k, v) ∈ l := by
  induction l with
  | nil => simp [alookup] at h
  | cons hd t ih =>
    obtain ⟨k0, v0⟩ := hd
    by_cases hk : k = k0
    · subst hk
      simp [alookup] at h
      simp [h]
    · exact List.mem_cons_of_mem _ (ih (by simpa [alookup, hk] using h))

theorem alookup_none_iff {κ α : Type} [DecidableEq κ] (l : List (κ × α)) (k : κ) :
    alookup l k = none ↔ ∀ v : α, (k, v) ∉ l := by
  induction l with
  | nil => simp [alookup]
  | cons hd t ih =>
    obtain ⟨k0, v0⟩ := hd
    by_cases hk : k = k0
    · subst hk
      simp only [alookup, if_pos rfl]
      constructor
      · intro h; cases h
      · intro h
        exact ((h v0) (List.mem_cons_self _ _)).elim
    · simp only [alookup, if_neg hk, ih]
      constructor
      · intro h v
        simp only [List.mem_cons, not_or]
        exact ⟨fun he => hk (congrArg Prod.fst he), h v⟩
      · intro h v
        exact fun hm => (h v) (List.mem_cons_of_mem _ hm)

theorem alookup_append_of_none {κ α : Type} [DecidableEq κ]
    {l : List (κ × α)} (m : List (κ × α)) {k : κ} (h : alookup l k = none) :
    alookup (l ++ m) k = alookup m k := by
  induction l with
  | nil => simp
  | cons hd t ih =>
    obtain ⟨k0, v0⟩ := hd
    by_cases hk : k = k0
    · subst hk; simp [alookup] at h
    · simp only [alookup, if_neg hk] at h
      simpa [alookup, hk] using ih h

theorem alookup_aerase_self {κ α : Type} [DecidableEq κ] (l : List (κ × α))
    (k : κ) : alookup (aerase l k) k = none := by
  induction l with
  | nil => simp [aerase, alookup]
  | cons hd t ih =>
    obtain ⟨k0, v0⟩ := hd
    by_cases hk : k0 = k
    · simpa [aerase, hk] using ih
    · simpa [aerase, hk, alookup, Ne.symm hk] using ih

-- ===== Dedup cache lemmas =====

theorem alookup_purge_none {ttl now : Nat} {l : List (String × Nat)} {k : String}
    (h : alookup l k = none) : alookup (purgeExpired ttl now l) k = none := by
  induction l with
  | nil => simpa [purgeExpired] using h
  | cons hd t ih =>
    obtain ⟨k0, ts⟩ := hd
    by_cases hk : k = k0
    · subst hk; simp [alookup] at h
    · simp only [alookup, if_neg hk] at h
      by_cases hts : now - ts ≤ ttl
      · simpa [purgeExpired, hts, alookup, hk] using h
      · simpa [purgeExpired, hts] using ih h

theorem alookup_purge_append_live {ttl now ts : Nat} {l : List (String × Nat)}
    {k : String} (h : alookup l k = none) (hle : now - ts ≤ ttl) :
    alookup (purgeExpired ttl now (l ++ [(k, ts)])) k = some ts := by
  induction l with
  | nil => simp [purgeExpired, hle, alookup]
  | cons hd t ih =>
    obtain ⟨k0, u⟩ := hd
    by_cases hk : k = k0
    · subst hk; simp [alookup] at h
    · simp only [alookup, if_neg hk] at h
      by_cases hu : now - u ≤ ttl
      · have h2 : alookup (t ++ [(k, ts)]) k = some ts := by
          rw [alookup_append_of_none _ h]; simp [alookup]
        simp only [List.cons_append, purgeExpired, if_pos hu, alookup, if_neg hk,
          List.append_eq]
        exact h2
      · simpa [purgeExpired, hu] using ih h

theorem alookup_purge_append_or (ttl now ts : Nat) (l : List (String × Nat))
    (k : String) (h : alookup l k = none) :
    alookup (purgeExpired ttl now (l ++ [(k, ts)])) k = none ∨
    alookup (purgeExpired ttl now (l ++ [(k, ts)])) k = some ts := by
  induction l with
  | nil =>
    by_cases hts : now - ts ≤ ttl
    · exact Or.inr (by simp [purgeExpired, hts, alookup])
    · exact Or.inl (by simp [purgeExpired, hts, alookup])
  | cons hd t ih =>
    obtain ⟨k0, u⟩ := hd
    by_cases hk : k = k0
    · subst hk; simp [alookup] at h
    · simp only [alookup, if_neg hk] at h
      by_cases hu : now - u ≤ ttl
      · refine Or.inr ?_
        have h2 : alookup (t ++ [(k, ts)]) k = some ts := by
          rw [alookup_append_of_none _ h]; simp [alookup]
        simp only [List.cons_append, purgeExpired, if_pos hu, alookup, if_neg hk,
          List.append_eq]
        exact h2
      · simpa [purgeExpired, hu] using ih h

theorem trimOldest_append_last {max : Nat} (hmax : 1 ≤ max)
    (l : List (String × Nat)) (x : String × Nat) :
    ∃ l2, trimOldest max (l ++ [x]) = l2 ++ [x] ∧ ∀ p ∈ l2, p ∈ l := by
  induction l with
  | nil =>
    refine ⟨[], ?_, by simp⟩
    simp [trimOldest, Nat.lt_irrefl, hmax]
    omega
  | cons hd t ih =>
    rw [List.cons_append]
    by_cases hlen : (t ++ [x]).length + 1 > max
    · obtain ⟨l2, h1, h2⟩ := ih
      refine ⟨l2, ?_, fun p hp => List.mem_cons_of_mem _ (h2 p hp)⟩
      rw [trimOldest, if_pos hlen, h1]
    · refine ⟨hd :: t, ?_, fun p hp => hp⟩
      rw [trimOldest, if_neg hlen, ← List.cons_append]

/-- A key absent from the cache map is reported absent by has, which then
only performs the front purge. -/
theorem has_of_absent (c : BoundedSeenIds) (k : String) (now : Nat)
    (h : alookup c.map k = none) :
    c.has k now = (false, ⟨c.max, c.ttlMs, purgeExpired c.ttlMs now c.map⟩) := by
  simp only [BoundedSeenIds.has, alookup_purge_none h]

/-- A live entry sitting at the most-recently-used end is reported present
and refreshed to the current timestamp. -/
theorem has_of_shape_live (c : BoundedSeenIds) (k : String) (now ts : Nat)
    (l : List (String × Nat)) (hm : c.map = l ++ [(k, ts)])
    (hl : alookup l k = none) (hle : now - ts ≤ c.ttlMs) :
    c.has k now =
      (true, ⟨c.max, c.ttlMs,
        aerase (purgeExpired c.ttlMs now c.map) k ++ [(k, now)]⟩) := by
  simp only [BoundedSeenIds.has, hm, alookup_purge_append_live hl hle]
  rw [if_neg (show ¬now - ts > c.ttlMs by omega)]

/-- An entry at the most-recently-used end whose TTL has elapsed is
reported absent (it is dropped by the purge or by the expiry check). -/
theorem hasFst_false_of_shape_expired (c : BoundedSeenIds) (k : String)
    (now ts : Nat) (l : List (String × Nat)) (hm : c.map = l ++ [(k, ts)])
    (hl : alookup l k = none) (hgt : c.ttlMs < now - ts) :
    (c.has k now).fst = false := by
  rcases alookup_purge_append_or c.ttlMs now ts l k hl with h | h
  · simp only [BoundedSeenIds.has, hm, h]
  · simp only [BoundedSeenIds.has, hm, h,
      if_pos (show now - ts > c.ttlMs by omega)]

/-- Adding a key places it alone at the most-recently-used end; the
entries surviving in front of it never carry the same key. -/
theorem add_shape (c : BoundedSeenIds) (k : String) (now : Nat)
    (hmax : 1 ≤ c.max) :
    ∃ l, (c.add k now).map = l ++ [(k, now)] ∧ alookup l k = none := by
  simp only [BoundedSeenIds.add]
  obtain ⟨l2, h1, h2⟩ :=
    trimOldest_append_last hmax (aerase (purgeExpired c.ttlMs now c.map) k) (k, now)
  refine ⟨l2, h1, ?_⟩
  rw [alookup_none_iff]
  intro v hv
  have := h2 (k, v) hv
  have hnone := alookup_aerase_self (purgeExpired c.ttlMs now c.map) k
  rw [alookup_none_iff] at hnone
  exact hnone v this

/-- Projection facts: add preserves the configured bounds. -/
theorem seenAdd_max (c : BoundedSeenIds) (k : String) (now : Nat) :
    (c.add k now).max = c.max := rfl

theorem seenAdd_ttlMs (c : BoundedSeenIds) (k : String) (now : Nat) :
    (c.add k now).ttlMs = c.ttlMs := rfl

-- ===== Characterizations of the signal branch =====

/-- When the fingerprint is not currently seen, the signal branch records
it and relays to the other occupant of the room. -/
theorem handleSignal_miss (env : ConnId → Bool) (ws : ConnId)
    (client : ClientRec) (code payload : String) (now : Nat) (s : ServerState)
    (room : Room) (hcr : client.roomCode = some code)
    (hroom : alookup s.rooms code = some room)
    (hmiss : (room.seenIds.has (sha256Base64Url22 payload) now).fst = false) :
    handleSignal env ws client payload now s =
      ({ s with
          rooms := aset s.rooms code
            { room with
                seenIds := ((room.seenIds.has (sha256Base64Url22 payload) now).snd).add
                  (sha256Base64Url22 payload) now } },
       safeSend env (if room.host = some ws then room.guest else room.host)
         (SMsg.signal payload)) := by
  simp only [handleSignal, hcr, hroom, hmiss, Bool.false_eq_true, if_false]

/-- When the fingerprint is currently seen, the signal branch refreshes
the cache entry and relays nothing. -/
theorem handleSignal_hit (env : ConnId → Bool) (ws : ConnId)
    (client : ClientRec) (code payload : String) (now : Nat) (s : ServerState)
    (room : Room) (hcr : client.roomCode = some code)
    (hroom : alookup s.rooms code = some room)
    (hhit : (room.seenIds.has (sha256Base64Url22 payload) now).fst = true) :
    handleSignal env ws client payload now s =
      ({ s with
          rooms := aset s.rooms code
            { room with
                seenIds := (room.seenIds.has (sha256Base64Url22 payload) now).snd } },
       []) := by
  simp only [handleSignal, hcr, hroom, hhit, if_true]

-- ===== C1 =====

set_option maxHeartbeats 1600000 in
/-- C1: for every connection paired in a room with an open peer, relaying
the same payload bytes twice in quick succession (the second relay within
the dedup TTL of the first) delivers the payload to the peer exactly once,
and relaying the same payload again after the TTL has elapsed since the
cached fingerprint timestamp (which the second relay refreshed) delivers
it a second time. -/
theorem C1_dedup_ttl_relay
    (env : ConnId → Bool) (s : ServerState) (ws peer a b : ConnId)
    (client : ClientRec) (code p : String) (room : Room) (t0 t1 t2 : Nat)
    (hcr : client.roomCode = some code)
    (hroom : alookup s.rooms code = some room)
    (hhost : room.host = some a) (hguest : room.guest = some b) (hab : a ≠ b)
    (hpair : (ws = a ∧ peer = b) ∨ (ws = b ∧ peer = a))
    (hopen : env peer = true)
    (hmax : 1 ≤ room.seenIds.max)
    (hfresh : alookup room.seenIds.map (sha256Base64Url22 p) = none)
    (hin : t1 - t0 ≤ room.seenIds.ttlMs)
    (hout : room.seenIds.ttlMs < t2 - t1) :
    (handleSignal env ws client p t0 s).snd = [(peer, SMsg.signal p)] ∧
    (handleSignal env ws client p t1 (handleSignal env ws client p t0 s).fst).snd = [] ∧
    (handleSignal env ws client p t2
        (handleSignal env ws client p t1
          (handleSignal env ws client p t0 s).fst).fst).snd = [(peer, SMsg.signal p)] := by
  have htgt : (if room.host = some ws then room.guest else room.host) = some peer := by
    rcases hpair with ⟨hw, hp2⟩ | ⟨hw, hp2⟩
    · subst hw; subst hp2; rw [if_pos hhost, hguest]
    · subst hw; subst hp2
      rw [if_neg (by simp [hhost, hab]), hhost]
  have hmiss0 : (room.seenIds.has (sha256Base64Url22 p) t0).fst = false := by
    rw [has_of_absent _ _ _ hfresh]
  have hsnd0 : (room.seenIds.has (sha256Base64Url22 p) t0).snd =
      ⟨room.seenIds.max, room.seenIds.ttlMs,
        purgeExpired room.seenIds.ttlMs t0 room.seenIds.map⟩ := by
    rw [has_of_absent _ _ _ hfresh]
  have e1 := handleSignal_miss env ws client code p t0 s room hcr hroom hmiss0
  obtain ⟨l1, hl1m, hl1⟩ :=
    add_shape ((room.seenIds.has (sha256Base64Url22 p) t0).snd)
      (sha256Base64Url22 p) t0 (by rw [hsnd0]; exact hmax)
  set cache1 :=
    ((room.seenIds.has (sha256Base64Url22 p) t0).snd).add (sha256Base64Url22 p) t0
    with hcache1
  have httl1 : cache1.ttlMs = room.seenIds.ttlMs := by
    rw [hcache1, seenAdd_ttlMs, hsnd0]
  have ehas1 : cache1.has (sha256Base64Url22 p) t1 =
      (true, ⟨cache1.max, cache1.ttlMs,
        aerase (purgeExpired cache1.ttlMs t1 cache1.map) (sha256Base64Url22 p) ++
          [(sha256Base64Url22 p, t1)]⟩) :=
    has_of_shape_live cache1 (sha256Base64Url22 p) t1 t0 l1 hl1m hl1
      (by rw [httl1]; exact hin)
  have hroom1 : alookup (handleSignal env ws client p t0 s).fst.rooms code =
      some { room with seenIds := cache1 } := by
    rw [e1]
    simp [alookup_aset]
  have hhit1 :
      (({ room with seenIds := cache1 } : Room).seenIds.has (sha256Base64Url22 p) t1).fst =
        true := by
    show (cache1.has (sha256Base64Url22 p) t1).fst = true
    rw [ehas1]
  have e2 := handleSignal_hit env ws client code p t1
    (handleSignal env ws client p t0 s).fst { room with seenIds := cache1 }
    hcr hroom1 hhit1
  refine ⟨?_, ?_, ?_⟩
  · rw [e1]
    simp [safeSend, hopen, htgt]
  · rw [e2]
  · set cache2 :=
      (({ room with seenIds := cache1 } : Room).seenIds.has (sha256Base64Url22 p) t1).snd
      with hcache2
    have hm2 : cache2.map =
        aerase (purgeExpired cache1.ttlMs t1 cache1.map) (sha256Base64Url22 p) ++
          [(sha256Base64Url22 p, t1)] := by
      rw [hcache2]
      show ((cache1.has (sha256Base64Url22 p) t1).snd).map = _
      rw [ehas1]
    have httl2 : cache2.ttlMs = room.seenIds.ttlMs := by
      rw [hcache2]
      show ((cache1.has (sha256Base64Url22 p) t1).snd).ttlMs = _
      rw [ehas1]
      exact httl1
    have hmiss2 : (cache2.has (sha256Base64Url22 p) t2).fst = false :=
      hasFst_false_of_shape_expired cache2 (sha256Base64Url22 p) t2 t1
        (aerase (purgeExpired cache1.ttlMs t1 cache1.map) (sha256Base64Url22 p))
        hm2 (alookup_aerase_self _ _) (by rw [httl2]; exact hout)
    have hroom2 : alookup (handleSignal env ws client p t1
        (handleSignal env ws client p t0 s).fst).fst.rooms code =
        some { { room with seenIds := cache1 } with seenIds := cache2 } := by
      rw [e2]
      simp [alookup_aset]
    have e3 := handleSignal_miss env ws client code p t2
      (handleSignal env ws client p t1 (handleSignal env ws client p t0 s).fst).fst
      { { room with seenIds := cache1 } with seenIds := cache2 }
      hcr hroom2 hmiss2
    rw [e3]
    simp [safeSend, hopen, htgt]

/-- Witness for C1 at a concrete paired room, payload and times. -/
theorem C1_dedup_ttl_relay_witness :
    (handleSignal envAll 0 c1client "x" 0 c1s).snd = [(1, SMsg.signal "x")] ∧
    (handleSignal envAll 0 c1client "x" 100
        (handleSignal envAll 0 c1client "x" 0 c1s).fst).snd = [] ∧
    (handleSignal envAll 0 c1client "x" 300201
        (handleSignal envAll 0 c1client "x" 100
          (handleSignal envAll 0 c1client "x" 0 c1s).fst).fst).snd =
      [(1, SMsg.signal "x")] :=
  C1_dedup_ttl_relay envAll c1s 0 1 0 1 c1client "r" "x" c1room 0 100 300201
    rfl (by decide) rfl rfl (by decide) (Or.inl ⟨rfl, rfl⟩) rfl (by decide)
    (by decide) (by decide) (by decide)

-- ===== C10 =====

set_option maxHeartbeats 1600000 in
/-- C10 (implicit): the signal branch records the payload fingerprint
before checking the peer slot, so a payload relayed while the guest slot
is empty is cached without being delivered, and a retransmission within
the TTL is dropped even though a peer joined in between. -/
theorem C10_fingerprint_cached_before_delivery
    (env : ConnId → Bool) (p : String) (t0 tj t1 : Nat)
    (h0 : env 0 = true) (hin : t1 - t0 ≤ 300000) :
    (handleSignal env 0 c10ca p t0 c10s).snd = [] ∧
    (alookup (handleSignal env 0 c10ca p t0 c10s).fst.rooms "r").map
      (fun rm => alookup rm.seenIds.map (sha256Base64Url22 p)) = some (some t0) ∧
    (handleSignal env 0 c10ca p t1
        (handleJoin env 1 c10cb "r" tj
          (handleSignal env 0 c10ca p t0 c10s).fst).fst).snd = [] := by
  have hnorm : normalizeRoomCode "r" = "r" := by decide
  have hmiss0 : (c10room.seenIds.has (sha256Base64Url22 p) t0).fst = false := rfl
  have e1 := handleSignal_miss env 0 c10ca "r" p t0 c10s c10room rfl (by decide) hmiss0
  have hc1 : ((c10room.seenIds.has (sha256Base64Url22 p) t0).snd).add
      (sha256Base64Url22 p) t0 =
      ⟨512, 300000, [(sha256Base64Url22 p, t0)]⟩ := rfl
  rw [hc1] at e1
  have hroomJ : alookup (handleJoin env 1 c10cb "r" tj
      (handleSignal env 0 c10ca p t0 c10s).fst).fst.rooms "r" =
      some { host := some 0, guest := some 1, createdAt := 0,
             seenIds := ⟨512, 300000, [(sha256Base64Url22 p, t0)]⟩ } := by
    rw [e1]
    simp [handleJoin, hnorm, c10s, c10room, aset, alookup, h0]
  have ehasJ := has_of_shape_live ⟨512, 300000, [(sha256Base64Url22 p, t0)]⟩
    (sha256Base64Url22 p) t1 t0 [] rfl rfl hin
  have e3 := handleSignal_hit env 0 c10ca "r" p t1
    (handleJoin env 1 c10cb "r" tj (handleSignal env 0 c10ca p t0 c10s).fst).fst
    { host := some 0, guest := some 1, createdAt := 0,
      seenIds := ⟨512, 300000, [(sha256Base64Url22 p, t0)]⟩ }
    rfl hroomJ (by rw [ehasJ])
  refine ⟨?_, ?_, ?_⟩
  · rw [e1]
    simp [c10room, safeSend]
  · rw [e1]
    simp [c10s, c10room, alookup_aset, alookup]
  · rw [e3]

/-- Witness for C10 at a concrete payload and times. -/
theorem C10_fingerprint_cached_before_delivery_witness :
    (handleSignal envAll 0 c10ca "y" 5 c10s).snd = [] ∧
    (alookup (handleSignal envAll 0 c10ca "y" 5 c10s).fst.rooms "r").map
      (fun rm => alookup rm.seenIds.map (sha256Base64Url22 "y")) = some (some 5) ∧
    (handleSignal envAll 0 c10ca "y" 10
        (handleJoin envAll 1 c10cb "r" 7
          (handleSignal envAll 0 c10ca "y" 5 c10s).fst).fst).snd = [] :=
  C10_fingerprint_cached_before_delivery envAll "y" 5 7 10 rfl (by decide)

-- ===== C3 =====

/-- C3 evaluated at the failing input: guest 1 of a TWO_PEERS room is
found dead by the heartbeat supervisor, which runs cleanupClient and
terminates the socket; the close event then runs cleanupClient again. The
room correctly transitions to one open occupant and is not deleted, and
the second run leaves the registry unchanged — but the remaining host
receives the peer-left notification TWICE (once per run), because the
close-path cleanup recomputes the other slot as the host. This contradicts
the exactly-once notification the specification requires of the idempotent
cleanup path. -/
theorem C3_double_cleanup_double_notify :
    (cleanupClient c3env 1 c3s).snd = [(0, SMsg.peerLeft)] ∧
    (alookup (cleanupClient c3env 1 c3s).fst.rooms "r").map
      (fun r => (r.host, r.guest)) = some (some 0, none) ∧
    (cleanupClient c3env 1 (cleanupClient c3env 1 c3s).fst).snd =
      [(0, SMsg.peerLeft)] ∧
    (cleanupClient c3env 1 (cleanupClient c3env 1 c3s).fst).fst =
      (cleanupClient c3env 1 c3s).fst := by decide

-- ===== C4 =====

/-- C4 counterexample: in the hardened variant, a relay whose held room
code no longer maps to a room sends a generic error frame back to the
sender — it is NOT a silent no-op as the claim states. -/
theorem C4_missing_room_sends_error :
    (handleSignal envAll 0 c4client "x" 0 c4s).snd = [(0, SMsg.error)] ∧
    (handleSignal envAll 0 c4client "x" 0 c4s).snd ≠ [] := by decide

/-- C4 amended: relay fails with the generic NotInRoom error when the
connection holds no room code (both variants; the v2.0 variant words the
error). When the held code maps to no room, the hardened variant also
replies with a generic error frame and changes no state, while the v2.0
variant fails silently as a no-op. -/
theorem C4_relay_error_paths :
    (∀ (env : ConnId → Bool) (ws : ConnId) (client : ClientRec) (p : String)
        (now : Nat) (s : ServerState), client.roomCode = none →
        handleSignal env ws client p now s = (s, sendGenericError env ws)) ∧
    (∀ (env : ConnId → Bool) (ws : ConnId) (client : ClientRec) (code p : String)
        (now : Nat) (s : ServerState), client.roomCode = some code →
        alookup s.rooms code = none →
        handleSignal env ws client p now s = (s, sendGenericError env ws)) ∧
    (∀ (env : ConnId → Bool) (ws : ConnId) (client : ClientRec) (p : String)
        (s : ServerState2), client.roomCode = none →
        handleSignal_v2 env ws client p s = (s, [(ws, SMsg2.error "Not in room")])) ∧
    (∀ (env : ConnId → Bool) (ws : ConnId) (client : ClientRec) (code p : String)
        (s : ServerState2), client.roomCode = some code →
        alookup s.rooms code = none →
        handleSignal_v2 env ws client p s = (s, [])) := by
  refine ⟨?_, ?_, ?_, ?_⟩
  · intro env ws client p now s h
    simp only [handleSignal, h]
  · intro env ws client code p now s h h2
    simp only [handleSignal, h, h2]
  · intro env ws client p s h
    simp only [handleSignal_v2, h]
  · intro env ws client code p s h h2
    simp only [handleSignal_v2, h, h2]

/-- Witness for C4 at concrete inputs for each conjunct. -/
theorem C4_relay_error_paths_witness :
    handleSignal envAll 3 ⟨none, false, 0, 0⟩ "x" 0 c4s =
      (c4s, sendGenericError envAll 3) ∧
    handleSignal envAll 0 c4client "x" 0 c4s = (c4s, sendGenericError envAll 0) ∧
    handleSignal_v2 envAll 3 ⟨none, false, 0, 0⟩ "x" ⟨[], []⟩ =
      (⟨[], []⟩, [(3, SMsg2.error "Not in room")]) ∧
    handleSignal_v2 envAll 0 c4client "x" ⟨[], []⟩ = (⟨[], []⟩, []) :=
  ⟨C4_relay_error_paths.1 envAll 3 ⟨none, false, 0, 0⟩ "x" 0 c4s rfl,
   C4_relay_error_paths.2.1 envAll 0 c4client "r" "x" 0 c4s rfl rfl,
   C4_relay_error_paths.2.2.1 envAll 3 ⟨none, false, 0, 0⟩ "x" ⟨[], []⟩ rfl,
   C4_relay_error_paths.2.2.2 envAll 0 c4client "r" "x" ⟨[], []⟩ rfl rfl⟩

-- ===== C5 =====

/-- C5: a create request whose normalized code already maps to a room
fails with the RoomConflict rejection and has no side effect: the whole
server state (registry, host slot, clients associations) is unchanged, in
both variants. -/
theorem C5_create_conflict_no_side_effect :
    (∀ (env : ConnId → Bool) (ws : ConnId) (client : ClientRec) (rm : String)
        (now : Nat) (s : ServerState),
        (alookup s.rooms (normalizeRoomCode rm)).isSome = true →
        handleCreate env ws client rm now s = (s, sendGenericError env ws)) ∧
    (∀ (ws : ConnId) (client : ClientRec) (rm : String) (now : Nat)
        (s : ServerState2),
        (alookup s.rooms (normalizeRoomCode rm)).isSome = true →
        handleCreate_v2 ws client rm now s = (s, [(ws, SMsg2.error "Room exists")])) := by
  constructor
  · intro env ws client rm now s h
    simp [handleCreate, h]
  · intro ws client rm now s h
    simp [handleCreate_v2, h]

/-- Witness for C5 at a concrete occupied code. -/
theorem C5_create_conflict_no_side_effect_witness :
    handleCreate envAll 1 ⟨none, false, 0, 0⟩ "demo" 3 c5s =
      (c5s, sendGenericError envAll 1) ∧
    handleCreate_v2 1 ⟨none, false, 0, 0⟩ "demo" 3 c5s2 =
      (c5s2, [(1, SMsg2.error "Room exists")]) :=
  ⟨C5_create_conflict_no_side_effect.1 envAll 1 ⟨none, false, 0, 0⟩ "demo" 3 c5s
      (by decide),
   C5_create_conflict_no_side_effect.2 1 ⟨none, false, 0, 0⟩ "demo" 3 c5s2
      (by decide)⟩

-- ===== C6 =====

/-- C6 counterexample: the v2.0 variant has no self-join check, so the
host of a one-peer room joining its own room code is installed in the
guest slot — the same connection then occupies both slots, contradicting
the claim that a self-join always fails. -/
theorem C6_v2_host_joins_own_room :
    (alookup (handleJoin_v2 envAll 0 ⟨some "r", true, 0, 0⟩ "r" c6s2).fst.rooms "r").map
      (fun r => (r.host, r.guest)) = some (some 0, some 0) := by decide

/-- C6 amended: in the hardened variant a join request by the host of the
room fails with the generic SelfJoin rejection and no state change, so a
connection never occupies both slots; the v2.0 variant lacks the check and
installs the host in the guest slot of its own non-full room. -/
theorem C6_selfjoin :
    (∀ (env : ConnId → Bool) (ws : ConnId) (client : ClientRec) (rm : String)
        (now : Nat) (s : ServerState) (room : Room),
        alookup s.rooms (normalizeRoomCode rm) = some room →
        room.host = some ws →
        handleJoin env ws client rm now s = (s, sendGenericError env ws)) ∧
    (∀ (env : ConnId → Bool) (ws : ConnId) (client : ClientRec) (rm : String)
        (s : ServerState2) (room : Room2),
        alookup s.rooms (normalizeRoomCode rm) = some room →
        room.host = some ws → room.state ≠ "TWO" →
        alookup (handleJoin_v2 env ws client rm s).fst.rooms (normalizeRoomCode rm) =
          some { room with guest := some ws, state := "TWO" } ∧
        ({ room with guest := some ws, state := "TWO" } : Room2).host = some ws) := by
  constructor
  · intro env ws client rm now s room hroom hhost
    simp only [handleJoin, hroom, hhost]
    cases henv : env ws with
    | false => simp
    | true => simp
  · intro env ws client rm s room hroom hhost hstate
    constructor
    · simp only [handleJoin_v2, hroom, if_neg hstate]
      simp [alookup_aset]
    · exact hhost

/-- Witness for C6 at concrete rooms for both variants. -/
theorem C6_selfjoin_witness :
    handleJoin envAll 7 ⟨some "demo", true, 0, 0⟩ "demo" 4 c5s =
      (c5s, sendGenericError envAll 7) ∧
    (alookup (handleJoin_v2 envAll 0 ⟨some "r", true, 0, 0⟩ "r" c6s2).fst.rooms
        (normalizeRoomCode "r") =
      some { c6room2 with guest := some 0, state := "TWO" } ∧
      ({ c6room2 with guest := some 0, state := "TWO" } : Room2).host = some 0) :=
  ⟨C6_selfjoin.1 envAll 7 ⟨some "demo", true, 0, 0⟩ "demo" 4 c5s c5room
      (by decide) rfl,
   C6_selfjoin.2 envAll 0 ⟨some "r", true, 0, 0⟩ "r" c6s2 c6room2
      (by decide) rfl (by decide)⟩

-- ===== C7 =====

/-- C7 counterexample: a frame arriving when the elapsed time EQUALS the
window length. The claim (elapsed greater-or-equal resets, frame within
ceiling) holds of the hardened check but fails on the v2.0 variant, which
resets only on strictly-greater elapsed time: at the boundary the frame is
counted against the old window and rejected. -/
theorem C7_v2_window_boundary :
    (checkRateLimit_v2 ⟨none, false, 50, 0⟩ 1000).snd = false ∧
    (checkRateLimit_v2 ⟨none, false, 50, 0⟩ 1000).fst.msgCount = 51 ∧
    (connRateCheck ⟨none, false, 50, 0⟩ 1000).snd = true ∧
    (connRateCheck ⟨none, false, 50, 0⟩ 1000).fst.msgCount = 1 := by decide

/-- C7 amended: the hardened per-connection check resets the counter to 1
(within the ceiling) when the elapsed time is at least the window length;
within a window it increments and allows exactly the frames within the
ceiling; a rate-rejected frame yields only the generic error frame and a
counter update, never a connection close or any registry change. The v2.0
variant behaves the same except that it resets only when the elapsed time
strictly exceeds the window length. -/
theorem C7_rate_window :
    (∀ (client : ClientRec) (now : Nat),
        now - client.msgWindowStart ≥ CONN_RATE_WINDOW_MS →
        connRateCheck client now =
          ({ client with msgWindowStart := now, msgCount := 1 }, true)) ∧
    (∀ (client : ClientRec) (now : Nat),
        now - client.msgWindowStart < CONN_RATE_WINDOW_MS →
        connRateCheck client now =
          ({ client with msgCount := client.msgCount + 1 },
           decide (client.msgCount + 1 ≤ CONN_RATE_MAX))) ∧
    (∀ (env : ConnId → Bool) (ws : ConnId) (msg : CMsg) (now : Nat)
        (s : ServerState) (client : ClientRec),
        alookup s.clients ws = some client →
        (connRateCheck client now).snd = false →
        handleMessage env ws msg now s =
          ({ s with clients := aset s.clients ws (connRateCheck client now).fst },
           sendGenericError env ws)) ∧
    (∀ (client : ClientRec) (now : Nat),
        now - client.msgWindowStart > RATE_LIMIT_WINDOW →
        checkRateLimit_v2 client now =
          ({ client with msgWindowStart := now, msgCount := 1 }, true)) ∧
    (∀ (client : ClientRec) (now : Nat),
        now - client.msgWindowStart ≤ RATE_LIMIT_WINDOW →
        checkRateLimit_v2 client now =
          ({ client with msgCount := client.msgCount + 1 },
           decide (client.msgCount + 1 ≤ RATE_LIMIT_MAX))) := by
  refine ⟨?_, ?_, ?_, ?_, ?_⟩
  · intro client now h
    simp [connRateCheck, if_pos h, CONN_RATE_MAX]
  · intro client now h
    simp only [connRateCheck, if_neg (show ¬now - client.msgWindowStart ≥
      CONN_RATE_WINDOW_MS by omega)]
    simp [← decide_not, Nat.not_lt]
  · intro env ws msg now s client h h2
    simp [handleMessage, h, h2]
  · intro client now h
    simp [checkRateLimit_v2, if_pos h, RATE_LIMIT_MAX]
  · intro client now h
    simp only [checkRateLimit_v2,
      if_neg (show ¬now - client.msgWindowStart > RATE_LIMIT_WINDOW by omega)]

/-- Witness for C7 at concrete counters and times. -/
theorem C7_rate_window_witness :
    connRateCheck ⟨none, false, 7, 0⟩ 1000 = (⟨none, false, 1, 1000⟩, true) ∧
    connRateCheck ⟨none, false, 50, 0⟩ 999 = (⟨none, false, 51, 0⟩, false) ∧
    handleMessage envAll 2 CMsg.pong 500
        { rooms := [], clients := [(2, ⟨none, false, 50, 0⟩)] } =
      ({ rooms := [], clients := [(2, ⟨none, false, 51, 0⟩)] },
       sendGenericError envAll 2) ∧
    checkRateLimit_v2 ⟨none, false, 50, 0⟩ 1001 = (⟨none, false, 1, 1001⟩, true) ∧
    checkRateLimit_v2 ⟨none, false, 3, 0⟩ 1000 = (⟨none, false, 4, 0⟩, true) := by
  refine ⟨?_, ?_, ?_, ?_, ?_⟩
  · exact C7_rate_window.1 ⟨none, false, 7, 0⟩ 1000 (by decide)
  · simpa using C7_rate_window.2.1 ⟨none, false, 50, 0⟩ 999 (by decide)
  · simpa using C7_rate_window.2.2.1 envAll 2 CMsg.pong 500
      { rooms := [], clients := [(2, ⟨none, false, 50, 0⟩)] }
      ⟨none, false, 50, 0⟩ (by decide) (by decide)
  · exact C7_rate_window.2.2.2.1 ⟨none, false, 50, 0⟩ 1001 (by decide)
  · simpa using C7_rate_window.2.2.2.2 ⟨none, false, 3, 0⟩ 1000 (by decide)

-- ===== C8 =====

/-- C8 counterexample: with an empty allowlist the gatekeeper admits a
connection presenting an arbitrary origin header; no same-origin matching
against the serving host exists anywhere in the check (the serving host is
not even an input), contradicting the claimed same-origin-only
semantics. -/
theorem C8_empty_allowlist_admits_any_origin :
    (verifyClient [] [] "https://evil.example" "203.0.113.7" 0).fst =
      VerifyDecision.accept := by decide

/-- C8 amended: with an empty allowlist the gatekeeper performs no origin
check at all — the decision is independent of the origin header; a missing
source address is rejected, and otherwise admission is governed solely by
the per-address rate check. -/
theorem C8_no_origin_check_when_unset :
    (∀ (b : List (String × RateBucket)) (origin ip : String) (now : Nat),
        verifyClient [] b origin ip now = verifyClient [] b "" ip now) ∧
    (∀ (b : List (String × RateBucket)) (origin : String) (now : Nat),
        (verifyClient [] b origin "" now).fst = VerifyDecision.reject 403 "Forbidden") ∧
    (∀ (b : List (String × RateBucket)) (origin ip : String) (now : Nat),
        ip ≠ "" →
        (rlAllow IP_RATE_WINDOW_MS IP_RATE_MAX b ip now).fst = true →
        (verifyClient [] b origin ip now).fst = VerifyDecision.accept) := by
  refine ⟨?_, ?_, ?_⟩
  · intro b origin ip now
    simp [verifyClient]
  · intro b origin now
    simp [verifyClient]
  · intro b origin ip now hip h
    simp [verifyClient, hip, h]

/-- Witness for C8 at a concrete foreign origin. -/
theorem C8_no_origin_check_when_unset_witness :
    verifyClient [] [] "https://evil.example" "1.2.3.4" 0 =
      verifyClient [] [] "" "1.2.3.4" 0 ∧
    (verifyClient [] [] "https://evil.example" "" 0).fst =
      VerifyDecision.reject 403 "Forbidden" ∧
    (verifyClient [] [] "https://evil.example" "1.2.3.4" 0).fst =
      VerifyDecision.accept :=
  ⟨C8_no_origin_check_when_unset.1 [] "https://evil.example" "1.2.3.4" 0,
   C8_no_origin_check_when_unset.2.1 [] "https://evil.example" 0,
   C8_no_origin_check_when_unset.2.2 [] "https://evil.example" "1.2.3.4" 0
      (by decide) (by decide)⟩

-- ===== C9 =====

/-- Every frame emitted by safeSend carries the given message. -/
theorem safeSend_snd {env : ConnId → Bool} {t : Option ConnId} {m : SMsg}
    {q : ConnId × SMsg} (h : q ∈ safeSend env t m) : q.snd = m := by
  unfold safeSend at h
  cases t with
  | none => cases h
  | some c =>
    by_cases he : env c = true
    · simp only [he, if_true, List.mem_singleton] at h
      rw [h]
    · simp [he] at h

/-- Every frame emitted by the cleanup path is a peer-left notification. -/
theorem cleanupClient_snd {env : ConnId → Bool} {ws : ConnId} {s : ServerState}
    {q : ConnId × SMsg} (h : q ∈ (cleanupClient env ws s).snd) :
    q.snd = SMsg.peerLeft := by
  unfold cleanupClient at h
  rcases hm : alookup s.clients ws with _ | client
  · simp [hm] at h
  · simp only [hm] at h
    rcases hrc : client.roomCode with _ | code
    · simp [hrc] at h
    · simp only [hrc] at h
      rcases hr : alookup s.rooms code with _ | room
      · simp [hr] at h
      · simp only [hr] at h
        repeat' split at h
        all_goals exact safeSend_snd (by simpa using h)

/-- The create branch emits either the single generic error frame or only
non-error frames. -/
theorem handleCreate_out (env : ConnId → Bool) (ws : ConnId) (client : ClientRec)
    (rm : String) (now : Nat) (s : ServerState) :
    (handleCreate env ws client rm now s).snd = sendGenericError env ws ∨
    ∀ q ∈ (handleCreate env ws client rm now s).snd, q.snd ≠ SMsg.error := by
  simp only [handleCreate]
  split
  · exact Or.inl rfl
  · split
    · exact Or.inl rfl
    · refine Or.inr fun q hq => ?_
      rw [safeSend_snd (by simpa using hq)]
      simp

/-- The join branch emits either the single generic error frame or only
non-error frames. -/
theorem handleJoin_out (env : ConnId → Bool) (ws : ConnId) (client : ClientRec)
    (rm : String) (now : Nat) (s : ServerState) :
    (handleJoin env ws client rm now s).snd = sendGenericError env ws ∨
    ∀ q ∈ (handleJoin env ws client rm now s).snd, q.snd ≠ SMsg.error := by
  simp only [handleJoin]
  split
  · exact Or.inl rfl
  · split
    · exact Or.inl rfl
    · split
      · exact Or.inl rfl
      · split
        · exact Or.inl rfl
        · refine Or.inr fun q hq => ?_
          rcases List.mem_append.mp (by simpa using hq) with h | h
          · rw [safeSend_snd h]; simp
          · rw [safeSend_snd h]; simp

/-- The signal branch emits either the single generic error frame or only
non-error frames. -/
theorem handleSignal_out (env : ConnId → Bool) (ws : ConnId) (client : ClientRec)
    (p : String) (now : Nat) (s : ServerState) :
    (handleSignal env ws client p now s).snd = sendGenericError env ws ∨
    ∀ q ∈ (handleSignal env ws client p now s).snd, q.snd ≠ SMsg.error := by
  simp only [handleSignal]
  split
  · exact Or.inl rfl
  · split
    · exact Or.inl rfl
    · split
      · exact Or.inr (by simp)
      · refine Or.inr fun q hq => ?_
        rw [safeSend_snd (by simpa using hq)]
        simp

/-- The leave branch emits only non-error frames. -/
theorem handleLeave_out (env : ConnId → Bool) (ws : ConnId) (client : ClientRec)
    (s : ServerState) :
    ∀ q ∈ (handleLeave env ws client s).snd, q.snd ≠ SMsg.error := by
  intro q hq
  simp only [handleLeave] at hq
  rcases List.mem_append.mp (by simpa using hq) with h | h
  · rw [cleanupClient_snd h]; simp
  · rw [safeSend_snd h]; simp

/-- Every rejection the message handler emits is the single generic error
frame; any other output contains no error frame at all. -/
theorem handleMessage_generic (env : ConnId → Bool) (ws : ConnId) (msg : CMsg)
    (now : Nat) (s : ServerState) :
    (handleMessage env ws msg now s).snd = sendGenericError env ws ∨
    ∀ q ∈ (handleMessage env ws msg now s).snd, q.snd ≠ SMsg.error := by
  cases hm : alookup s.clients ws with
  | none => exact Or.inr (by simp [handleMessage, hm])
  | some client =>
    cases msg with
    | create rm =>
      simp only [handleMessage, hm]
      split
      · exact Or.inl rfl
      · split
        · exact Or.inl rfl
        · exact handleCreate_out env ws _ rm now _
    | join rm =>
      simp only [handleMessage, hm]
      split
      · exact Or.inl rfl
      · split
        · exact Or.inl rfl
        · exact handleJoin_out env ws _ rm now _
    | signal d =>
      simp only [handleMessage, hm]
      split
      · exact Or.inl rfl
      · split
        · exact Or.inl rfl
        · exact handleSignal_out env ws _ d now _
    | leave =>
      simp only [handleMessage, hm]
      split
      · exact Or.inl rfl
      · split
        · exact Or.inl rfl
        · exact Or.inr (handleLeave_out env ws _ _)
    | pong =>
      simp only [handleMessage, hm]
      split
      · exact Or.inl rfl
      · split
        · exact Or.inl rfl
        · exact Or.inr (by simp)
    | malformed =>
      simp only [handleMessage, hm]
      split
      · exact Or.inl rfl
      · split
        · exact Or.inl rfl
        · exact Or.inl rfl

/-- C9 counterexample: the gatekeeper rejection visible to the requester
differs by cause — an origin failure yields HTTP 403 Forbidden while a
source-rate failure yields HTTP 429 Too Many Requests — so two attempts
rejected for different causes do NOT receive identical outcomes. -/
theorem C9_gatekeeper_distinct_rejections :
    (verifyClient ["https://app.example"] [] "https://evil.example"
        "203.0.113.7" 0).fst = VerifyDecision.reject 403 "Forbidden" ∧
    (verifyClient ["https://app.example"] [("203.0.113.7", ⟨100, 0⟩)]
        "https://app.example" "203.0.113.7" 1).fst =
      VerifyDecision.reject 429 "Too Many Requests" ∧
    (verifyClient ["https://app.example"] [] "https://evil.example"
        "203.0.113.7" 0).fst ≠
      (verifyClient ["https://app.example"] [("203.0.113.7", ⟨100, 0⟩)]
        "https://app.example" "203.0.113.7" 1).fst := by decide

/-- C9 amended: gatekeeper rejections reveal the failed check through
distinct HTTP outcomes (403 Forbidden for origin and missing-address
failures, 429 Too Many Requests for the source rate check); at the message
boundary of the hardened variant, every rejection is the single generic
error frame with no distinguishing detail, and non-rejected operations
emit no error frame at all. -/
theorem C9_error_frames :
    (∀ (allowed : List String) (b : List (String × RateBucket))
        (origin ip : String) (now : Nat),
        0 < allowed.length → (origin = "" ∨ allowed.contains origin = false) →
        (verifyClient allowed b origin ip now).fst =
          VerifyDecision.reject 403 "Forbidden") ∧
    (∀ (allowed : List String) (b : List (String × RateBucket))
        (origin ip : String) (now : Nat),
        ¬(0 < allowed.length ∧ (origin = "" ∨ allowed.contains origin = false)) →
        ip ≠ "" →
        (rlAllow IP_RATE_WINDOW_MS IP_RATE_MAX b ip now).fst = false →
        (verifyClient allowed b origin ip now).fst =
          VerifyDecision.reject 429 "Too Many Requests") ∧
    (VerifyDecision.reject 403 "Forbidden" ≠
      VerifyDecision.reject 429 "Too Many Requests") ∧
    (∀ (env : ConnId → Bool) (ws : ConnId) (msg : CMsg) (now : Nat)
        (s : ServerState),
        (handleMessage env ws msg now s).snd = sendGenericError env ws ∨
        ∀ q ∈ (handleMessage env ws msg now s).snd, q.snd ≠ SMsg.error) := by
  refine ⟨?_, ?_, by decide, handleMessage_generic⟩
  · intro allowed b origin ip now h1 h2
    unfold verifyClient
    rw [if_pos ⟨h1, h2⟩]
  · intro allowed b origin ip now h1 h2 h3
    unfold verifyClient
    rw [if_neg h1, if_neg h2, if_pos h3]

/-- Witness for C9 at concrete rejected attempts and one handled frame. -/
theorem C9_error_frames_witness :
    (verifyClient ["https://app.example"] [] "" "9.9.9.9" 0).fst =
      VerifyDecision.reject 403 "Forbidden" ∧
    (verifyClient [] [("9.9.9.9", ⟨100, 5⟩)] "" "9.9.9.9" 6).fst =
      VerifyDecision.reject 429 "Too Many Requests" ∧
    ((handleMessage envAll 0 CMsg.malformed 0
        ⟨[], [(0, ⟨none, false, 0, 0⟩)]⟩).snd = sendGenericError envAll 0 ∨
      ∀ q ∈ (handleMessage envAll 0 CMsg.malformed 0
          ⟨[], [(0, ⟨none, false, 0, 0⟩)]⟩).snd, q.snd ≠ SMsg.error) :=
  ⟨C9_error_frames.1 ["https://app.example"] [] "" "9.9.9.9" 0 (by decide)
      (Or.inl rfl),
   C9_error_frames.2.1 [] [("9.9.9.9", ⟨100, 5⟩)] "" "9.9.9.9" 6 (by decide)
      (by decide) (by decide),
   C9_error_frames.2.2.2 envAll 0 CMsg.malformed 0
      ⟨[], [(0, ⟨none, false, 0, 0⟩)]⟩⟩

-- ===== C2 =====

/-- Deleting a key, or storing a room that keeps an occupant, preserves
the occupied-room invariant of a registry. -/
theorem ite_rooms_ok {c : Prop} [Decidable c] {s : ServerState} {code : String}
    {room2 : Room} {out out2 : List (ConnId × SMsg)} (h : RoomsOK s)
    (hroom : ¬c → room2.host ≠ none ∨ room2.guest ≠ none) :
    RoomsOK (if c then ({ s with rooms := aerase s.rooms code }, out)
             else ({ s with rooms := aset s.rooms code room2 }, out2)).fst := by
  split
  · intro p hp
    exact h p (mem_aerase hp)
  · next hc =>
    intro p hp
    rcases mem_aset hp with rfl | hp2
    · exact hroom hc
    · exact h p hp2

/-- The cleanup path preserves the occupied-room invariant. -/
theorem cleanupClient_RoomsOK (env : ConnId → Bool) (ws : ConnId)
    (s : ServerState) (h : RoomsOK s) : RoomsOK (cleanupClient env ws s).fst := by
  unfold cleanupClient
  rcases hm : alookup s.clients ws with _ | client
  · simp only [hm]; exact h
  · simp only [hm]
    rcases hrc : client.roomCode with _ | code
    · simp only [hrc]; exact h
    · simp only [hrc]
      rcases hr : alookup s.rooms code with _ | room
      · simp only [hr]; exact h
      · simp only [hr]
        refine ite_rooms_ok h ?_
        intro hc
        simpa using not_and_or.mp hc

/-- The create branch preserves the occupied-room invariant. -/
theorem handleCreate_RoomsOK (env : ConnId → Bool) (ws : ConnId)
    (client : ClientRec) (rm : String) (now : Nat) (s : ServerState)
    (h : RoomsOK s) : RoomsOK (handleCreate env ws client rm now s).fst := by
  simp only [handleCreate]
  split
  · exact h
  · split
    · exact h
    · intro p hp
      rcases mem_aset hp with rfl | hp2
      · left; simp
      · exact h p hp2

/-- The join branch preserves the occupied-room invariant. -/
theorem handleJoin_RoomsOK (env : ConnId → Bool) (ws : ConnId)
    (client : ClientRec) (rm : String) (now : Nat) (s : ServerState)
    (h : RoomsOK s) : RoomsOK (handleJoin env ws client rm now s).fst := by
  simp only [handleJoin]
  split
  · exact h
  · split
    · exact h
    · split
      · exact h
      · split
        · exact h
        · intro p hp
          rcases mem_aset hp with rfl | hp2
          · right; simp
          · exact h p hp2

/-- The signal branch preserves the occupied-room invariant. -/
theorem handleSignal_RoomsOK (env : ConnId → Bool) (ws : ConnId)
    (client : ClientRec) (p : String) (now : Nat) (s : ServerState)
    (h : RoomsOK s) : RoomsOK (handleSignal env ws client p now s).fst := by
  simp only [handleSignal]
  rcases hrc : client.roomCode with _ | code
  · simp only [hrc]; exact h
  · simp only [hrc]
    rcases hr : alookup s.rooms code with _ | room
    · simp only [hr]; exact h
    · simp only [hr]
      have hrm : room.host ≠ none ∨ room.guest ≠ none := by
        simpa using h (code, room) (alookup_mem hr)
      split
      · intro q hq
        rcases mem_aset hq with rfl | hq2
        · simpa using hrm
        · exact h q hq2
      · intro q hq
        rcases mem_aset hq with rfl | hq2
        · simpa using hrm
        · exact h q hq2

/-- The leave branch preserves the occupied-room invariant. -/
theorem handleLeave_RoomsOK (env : ConnId → Bool) (ws : ConnId)
    (client : ClientRec) (s : ServerState) (h : RoomsOK s) :
    RoomsOK (handleLeave env ws client s).fst := by
  have h2 := cleanupClient_RoomsOK env ws s h
  intro p hp
  exact h2 p hp

/-- The whole message handler preserves the occupied-room invariant. -/
theorem handleMessage_RoomsOK (env : ConnId → Bool) (ws : ConnId) (msg : CMsg)
    (now : Nat) (s : ServerState) (h : RoomsOK s) :
    RoomsOK (handleMessage env ws msg now s).fst := by
  cases hm : alookup s.clients ws with
  | none => simp only [handleMessage, hm]; exact h
  | some client =>
    have h1 : RoomsOK { s with clients := aset s.clients ws (connRateCheck client now).fst } := h
    cases msg with
    | create rm =>
      simp only [handleMessage, hm]
      split
      · exact h1
      · split
        · exact h1
        · exact handleCreate_RoomsOK env ws _ rm now _ h1
    | join rm =>
      simp only [handleMessage, hm]
      split
      · exact h1
      · split
        · exact h1
        · exact handleJoin_RoomsOK env ws _ rm now _ h1
    | signal d =>
      simp only [handleMessage, hm]
      split
      · exact h1
      · split
        · exact h1
        · exact handleSignal_RoomsOK env ws _ d now _ h1
    | leave =>
      simp only [handleMessage, hm]
      split
      · exact h1
      · split
        · exact h1
        · exact handleLeave_RoomsOK env ws _ _ h1
    | pong =>
      simp only [handleMessage, hm]
      split
      · exact h1
      · split
        · exact h1
        · exact h1
    | malformed =>
      simp only [handleMessage, hm]
      split
      · exact h1
      · split
        · exact h1
        · exact h1

/-- The reaper only removes rooms, so surviving entries come from the
original registry. -/
theorem mem_reapRooms {env : ConnId → Bool} {now : Nat} {l : List (String × Room)}
    {p : String × Room} (h : p ∈ (reapRooms env now l).fst) : p ∈ l := by
  induction l with
  | nil => simp [reapRooms] at h
  | cons hd t ih =>
    obtain ⟨code, room⟩ := hd
    simp only [reapRooms] at h
    split at h
    · exact List.mem_cons_of_mem _ (ih (by simpa using h))
    · split at h
      · exact List.mem_cons_of_mem _ (ih (by simpa using h))
      · rcases (by simpa using h :
            p = (code, room) ∨ p ∈ (reapRooms env now t).fst) with h2 | h2
        · simp [h2]
        · exact List.mem_cons_of_mem _ (ih h2)

/-- The reaper pass preserves the occupied-room invariant. -/
theorem reap_RoomsOK (env : ConnId → Bool) (now : Nat) (s : ServerState)
    (h : RoomsOK s) : RoomsOK (reap env now s).fst := by
  intro p hp
  exact h p (mem_reapRooms hp)

/-- C2 amended: over every reachable registry state, no room with BOTH
slots empty exists in the registry; whenever an operation removes the last
remaining occupant reference, the room is deleted immediately. (The room
left behind when only the host departs retains its guest; by the
derived-state definition of the claim such a hostless room is EMPTY yet is
deliberately retained, see the counterexample.) -/
theorem C2_no_fully_empty_room (s : ServerState) (h : Reachable s) :
    RoomsOK s := by
  induction h with
  | init => intro p hp; cases hp
  | step hre hstep ih =>
    cases hstep with
    | connect ws now hfresh => exact fun p hp => ih p hp
    | message env ws msg now => exact handleMessage_RoomsOK env ws msg now _ ih
    | disconnect env ws => exact cleanupClient_RoomsOK env ws _ ih
    | reaper env now => exact reap_RoomsOK env now _ ih

/-- C2 counterexample: a reachable state (two connections pair in room r,
then the host disconnects) in which the registry still contains room r
with an EMPTY host slot — the room whose derived state is EMPTY under the
claim (no host) exists in the registry, because the code only deletes a
room when both slots are empty. -/
theorem C2_hostless_room_reachable :
    Reachable c2s5 ∧
    (alookup c2s5.rooms "r").map Room.host = some none ∧
    (alookup c2s5.rooms "r").isSome = true := by
  refine ⟨?_, by decide, by decide⟩
  exact Reachable.step
    (Reachable.step
      (Reachable.step
        (Reachable.step
          (Reachable.step Reachable.init (Step.connect ⟨[], []⟩ 0 0 rfl))
          (Step.connect c2s1 1 0 (by decide)))
        (Step.message c2s2 envAll 0 (CMsg.create "r") 0))
      (Step.message c2s3 envAll 1 (CMsg.join "r") 0))
    (Step.disconnect c2s4 envAll 0)

/-- Witness for C2 at a concrete reachable state holding one room. -/
theorem C2_no_fully_empty_room_witness : RoomsOK c2w2 :=
  C2_no_fully_empty_room c2w2
    (Reachable.step
      (Reachable.step Reachable.init (Step.connect ⟨[], []⟩ 5 2 rfl))
      (Step.message c2w1 envAll 5 (CMsg.create "demo") 2))
